import Mathlib

/-!
Verification development for the multi-site price-comparison scraper
(`scrape.py`).  The Python source is shallowly embedded: every function of
the source that the claims touch is translated into an executable Lean
definition of the same name.  Modelling conventions:

* Every number the program manipulates is produced by parsing a finite
  decimal literal, so a runtime value is represented exactly as a
  `PyFloat`: an integer mantissa together with a count of fractional
  digits (value `mant / 10 ^ fdigits`).  The source stores Python floats;
  on the finite decimals exercised here the float comparisons and the
  exact comparisons agree, and `PyFloat.toRat` gives the exact rational
  value used in the statements.
* Python exceptions that the source can raise and catch (the `ValueError`
  from `float()` inside the extractors, caught by `extract_price`) are
  modelled with `Except Unit`; transport errors are a `FetchOutcome`
  value, mirroring how `requests.RequestException` is caught in
  `scrape_single_site`.
* Library behaviour used by the source (`str.strip`, `str.replace`,
  `str.isdigit`, `float(str)`, `re.search` for the one pattern the source
  uses, and BeautifulSoup `select_one`) is modelled on the fragment the
  program exercises; each model carries a comment stating its fragment.
* An HTML document is modelled as its raw text together with the parsed
  element list in document (pre-order) order; BeautifulSoup's
  `select_one` then returns the first element matching the compound
  selector.
-/

/-- Ten to the power `n`, by structural recursion (kernel-computable). -/
def pow10 : ℕ → ℕ
  | 0 => 1
  | n + 1 => 10 * pow10 n

/-- An exact finite decimal: the value `mant / 10 ^ fdigits`.  This is the
runtime representation of the Python floats flowing through the program;
all of them are parsed from finite decimal literals. -/
structure PyFloat where
  mant : ℤ
  fdigits : ℕ
deriving DecidableEq

/-- The exact rational value of a `PyFloat`. -/
def PyFloat.toRat (x : PyFloat) : ℚ :=
  (x.mant : ℚ) / ((pow10 x.fdigits : ℕ) : ℚ)

/-- Numeric strict order on `PyFloat` by cross multiplication; this is the
order Python's `<` computes on the corresponding floats. -/
def PyFloat.Lt (a b : PyFloat) : Prop :=
  a.mant * ((pow10 b.fdigits : ℕ) : ℤ) < b.mant * ((pow10 a.fdigits : ℕ) : ℤ)

instance (a b : PyFloat) : Decidable (a.Lt b) := by
  unfold PyFloat.Lt
  exact inferInstance

/-- Numeric equality on `PyFloat` (Python `==` on the values); two
representations with different numbers of trailing zeros can be
numerically equal. -/
def PyFloat.Deq (a b : PyFloat) : Prop :=
  a.mant * ((pow10 b.fdigits : ℕ) : ℤ) = b.mant * ((pow10 a.fdigits : ℕ) : ℤ)

instance (a b : PyFloat) : Decidable (a.Deq b) := by
  unfold PyFloat.Deq
  exact inferInstance

/-- Model of the ASCII fragment of Python whitespace, as used by
`str.strip()` (no arguments) and by the regex class `\s`.  The documents
and texts treated in this development contain only ASCII whitespace. -/
def isPySpace (c : Char) : Bool :=
  c = ' ' || c = '\t' || c = '\n' || c = '\r' || c = '\x0b' || c = '\x0c'

/-- Model of Python `str.strip()` (strip whitespace from both ends). -/
def pyStrip (s : String) : String :=
  ⟨((s.data.dropWhile isPySpace).reverse.dropWhile isPySpace).reverse⟩

/-- Fuel-indexed worker for `pyReplace`; replaces non-overlapping
occurrences of `pat` left to right, exactly as Python `str.replace` does
for a non-empty pattern.  The fuel is the length of the subject string,
which bounds the number of steps. -/
def replaceFuel (pat rep : List Char) : Nat → List Char → List Char
  | _, [] => []
  | 0, s => s
  | fuel + 1, c :: cs =>
    if pat.isPrefixOf (c :: cs) then
      rep ++ replaceFuel pat rep fuel ((c :: cs).drop pat.length)
    else
      c :: replaceFuel pat rep fuel cs

/-- Model of Python `str.replace(pat, rep)` for a non-empty pattern (the
source only replaces `"R$"` and `","`). -/
def pyReplace (s pat rep : String) : String :=
  ⟨replaceFuel pat.data rep.data s.data.length s.data⟩

/-- Numeric value of a list of ASCII digits. -/
def digitsToNat (ds : List Char) : ℕ :=
  ds.foldl (fun acc c => 10 * acc + (c.toNat - '0'.toNat)) 0

/-- Model of Python `float(str)` on the fragment the program exercises:
optional surrounding whitespace, an optional sign, and a finite decimal
literal (digits with at most one dot, at least one digit overall).
Anything else — in particular a string with two dots such as
`"1.234.56"` — raises `ValueError`, modelled as `none`.  The special
forms `inf`/`nan`/hex/exponent accepted by Python are outside the
modelled fragment and do not occur in the claims. -/
def pyFloatParse (s : String) : Option PyFloat :=
  let cs := ((s.data.dropWhile isPySpace).reverse.dropWhile isPySpace).reverse
  let sgnBody : ℤ × List Char :=
    match cs with
    | '-' :: r => (-1, r)
    | '+' :: r => (1, r)
    | r => (1, r)
  let body := sgnBody.2
  let ip := body.takeWhile Char.isDigit
  match body.drop ip.length with
  | [] => if ip.isEmpty then none else some ⟨sgnBody.1 * digitsToNat ip, 0⟩
  | '.' :: fr =>
    if fr.all Char.isDigit ∧ ¬(ip.isEmpty ∧ fr.isEmpty) then
      some ⟨sgnBody.1 * (digitsToNat ip * pow10 fr.length + digitsToNat fr), fr.length⟩
    else none
  | _ => none

/-- The literal part of the Supernova regex `"lowPrice":\s*(\d+\.?\d*)`. -/
def lpKey : List Char := ("\"lowPrice\":").data

/-- Attempt to match the Supernova pattern at the start of `cs`,
returning the text of capture group 1 on success.  The greedy pieces
`\s*`, `\d+`, `\.?`, `\d*` never need backtracking here because a
whitespace character is never a digit, so maximal munch is exact. -/
def lowPriceMatchAt (cs : List Char) : Option (List Char) :=
  if lpKey.isPrefixOf cs then
    let r1 := (cs.drop lpKey.length).dropWhile isPySpace
    let d1 := r1.takeWhile Char.isDigit
    if d1.isEmpty then none
    else
      match r1.drop d1.length with
      | '.' :: r2 => some (d1 ++ '.' :: r2.takeWhile Char.isDigit)
      | _ => some d1
  else none

/-- Model of `re.search` for the Supernova pattern: leftmost position at
which the pattern matches.  The regex class `\d` is modelled as an ASCII
digit; the documents exercised contain only ASCII text at the match
site. -/
def lowPriceSearch : List Char → Option (List Char)
  | [] => none
  | c :: cs =>
    match lowPriceMatchAt (c :: cs) with
    | some g => some g
    | none => lowPriceSearch cs

/-- One element of the parsed markup tree: tag name, class list, text.
The markup view of a document is the list of its elements in document
(pre-order) order. -/
structure Elem where
  tag : String
  classes : List String
  text : String
deriving DecidableEq

/-- A compound CSS selector of the shape the source uses: an optional tag
name and a set of required classes. -/
structure Selector where
  tag : Option String
  classes : List String
deriving DecidableEq

/-- Whether an element matches a compound selector: the tag agrees when
the selector specifies one, and every selector class is among the
element's classes. -/
def selMatches (sel : Selector) (e : Elem) : Bool :=
  (match sel.tag with
   | some t => t == e.tag
   | none => true) &&
  sel.classes.all (fun c => e.classes.contains c)

/-- Model of BeautifulSoup `select_one`: the first element of the
document, in document order, matching the selector. -/
def selectOne (soup : List Elem) (sel : Selector) : Option Elem :=
  soup.find? (selMatches sel)

/-- Selector `"div.product-card__new-price"` (scrape.py line 232). -/
def qSel1 : Selector := ⟨some "div", ["product-card__new-price"]⟩

/-- Selector `".product__new-price"` (scrape.py line 235). -/
def qSel2 : Selector := ⟨none, ["product__new-price"]⟩

/-- The Carrefour selector (scrape.py line 252). -/
def carrefourSel : Selector :=
  ⟨some "span",
    ["text-blue-royal", "font-bold", "whitespace-nowrap", "block",
     "min-h-6", "text-lg", "leading-none"]⟩

/-- The shared price-text cleaning of `extract_queiroz_price` and
`extract_carrefour_price` (scrape.py lines 238-244 and 256-262):
`get_text().strip()`, then `.replace("R$", "").strip()`, then
`.replace(",", ".")`, then `float(...)` when the result is non-empty.
`Except.error ()` is the `ValueError` the call to `float` raises on an
unparseable string; it propagates to `extract_price`'s handler. -/
def brl_text_to_price (t : String) : Except Unit (Option PyFloat) :=
  let t1 := pyStrip t
  let t2 := pyStrip (pyReplace t1 "R$" "")
  let t3 := pyReplace t2 "," "."
  if t3 = "" then Except.ok none
  else
    match pyFloatParse t3 with
    | some q => Except.ok (some q)
    | none => Except.error ()

/-- Embedding of `extract_supernova_price` (scrape.py lines 215-226):
regex search for the `lowPrice` field on the raw HTML, `float` on the
captured group, then the sanity bound `1 < price < 100000`.  The inner
`none` case of the parse is unreachable (the captured group always
parses) but mirrors the shape of the source. -/
def extract_supernova_price (html_text : String) : Option PyFloat :=
  match lowPriceSearch html_text.data with
  | some g =>
    match pyFloatParse ⟨g⟩ with
    | some price =>
      if PyFloat.Lt ⟨1, 0⟩ price ∧ PyFloat.Lt price ⟨100000, 0⟩ then some price
      else none
    | none => none
  | none => none

/-- Embedding of `extract_queiroz_price` (scrape.py lines 229-246):
primary selector, fallback selector when the primary finds nothing, then
the shared cleaning and `float` parse. -/
def extract_queiroz_price (soup : List Elem) : Except Unit (Option PyFloat) :=
  let price_element :=
    match selectOne soup qSel1 with
    | some e => some e
    | none => selectOne soup qSel2
  match price_element with
  | some e => brl_text_to_price e.text
  | none => Except.ok none

/-- Embedding of `extract_carrefour_price` (scrape.py lines 249-264). -/
def extract_carrefour_price (soup : List Elem) : Except Unit (Option PyFloat) :=
  match selectOne soup carrefourSel with
  | some e => brl_text_to_price e.text
  | none => Except.ok none

/-- The body of `extract_price`'s `try` block (scrape.py lines 200-209):
dispatch on the site name.  An unrecognized name falls off the end of
the `if` chain and yields `None`. -/
def extract_price_inner (site_name : String) (soup : List Elem) (html_text : String) :
    Except Unit (Option PyFloat) :=
  if site_name = "Supernova Era" then Except.ok (extract_supernova_price html_text)
  else if site_name = "Lojas Queiroz" then extract_queiroz_price soup
  else if site_name = "Carrefour" then extract_carrefour_price soup
  else Except.ok none

/-- Embedding of `extract_price` (scrape.py lines 195-212): the
`except (ValueError, AttributeError)` handler turns any exception from
the site extractor into `None`. -/
def extract_price (site_name : String) (soup : List Elem) (html_text : String) :
    Option PyFloat :=
  match extract_price_inner site_name soup html_text with
  | Except.ok r => r
  | Except.error _ => none

/-- Model of Python `str.isdigit` on the character repertoire used in
this development: true on ASCII digits and on the non-ASCII Unicode
digit characters exercised here (Arabic-Indic digits U+0660–U+0669,
the superscripts one/two/three, and the fullwidth digits
U+FF10–U+FF19).  Python's `str.isdigit` is true for further Unicode
digit characters as well; they are not exercised by any statement
below. -/
def pyIsDigit (c : Char) : Bool :=
  c.isDigit ||
  (0x660 ≤ c.toNat && c.toNat ≤ 0x669) ||
  c = '¹' || c = '²' || c = '³' ||
  (0xFF10 ≤ c.toNat && c.toNat ≤ 0xFF19)

/-- Embedding of `is_valid_ean` (scrape.py lines 126-128):
`ean.isdigit() and (len(ean) == 8 or len(ean) == 13)`.  Python's
`isdigit` is false on the empty string, hence the non-emptiness
conjunct. -/
def is_valid_ean (ean : String) : Bool :=
  (!ean.data.isEmpty && ean.data.all pyIsDigit) &&
  (ean.length == 8 || ean.length == 13)

/-- Embedding of the `SITES` registry (scrape.py lines 20-24), as an
association list in the (insertion-ordered) iteration order of the
Python dict. -/
def SITES : List (String × String) :=
  [("Supernova Era", "https://www.supernovaera.com.br/"),
   ("Carrefour", "https://mercado.carrefour.com.br/busca/"),
   ("Lojas Queiroz", "https://www.lojasqueiroz.com.br/busca?s=")]

/-- Embedding of `build_search_url` (scrape.py lines 185-192).  The
source indexes `SITES[site_name]`, which only ever receives keys of the
registry; the `getD ""` default is never reached from the pipeline. -/
def build_search_url (site_name ean : String) : String :=
  let base_url := (SITES.lookup site_name).getD ""
  if site_name = "Supernova Era" then
    base_url ++ ean ++ "?_q=" ++ ean ++ "&map=ft"
  else
    base_url ++ ean

/-- A fetched document: the raw body text and its parsed markup view. -/
structure Doc where
  text : String
  soup : List Elem
deriving DecidableEq

/-- Outcome of the HTTP fetch for one URL: either a transport failure
(timeout, connection error, or the non-2xx status raised by
`raise_for_status`) or a document body. -/
inductive FetchOutcome where
  | failure (reason : String)
  | success (doc : Doc)
deriving DecidableEq

/-- Embedding of `scrape_single_site` (scrape.py lines 151-182).  The
fetch environment maps a URL to its outcome; headers, cookies and the
timeout are fixed by the source and absorbed into the environment.  The
`except requests.RequestException` handler is the `failure` branch. -/
def scrape_single_site (env : String → FetchOutcome) (site_name ean : String) :
    Option PyFloat :=
  match env (build_search_url site_name ean) with
  | FetchOutcome.failure _ => none
  | FetchOutcome.success doc => extract_price site_name doc.soup doc.text

/-- Embedding of `scrape_all_sites` (scrape.py lines 131-148): one
price-or-absent entry per registry site, in registry order. -/
def scrape_all_sites (env : String → FetchOutcome) (ean : String) :
    List (String × Option PyFloat) :=
  SITES.map (fun site => (site.1, scrape_single_site env site.1 ean))

/-- One iteration of the loop in `find_lowest_price` (scrape.py lines
275-278): a present price replaces the accumulator exactly when it is
strictly smaller; `none` as accumulated best models the initial
`float("inf")` (every stored price is finite). -/
def fl_step (acc : Option PyFloat × String) (p : String × Option PyFloat) :
    Option PyFloat × String :=
  match p.2 with
  | none => acc
  | some price =>
    match acc.1 with
    | none => (some price, p.1)
    | some lowest => if price.Lt lowest then (some price, p.1) else acc

/-- Round `a / d` (with `d > 0`) to the nearest integer, ties to even:
the rounding Python's `"%.2f"`-style formatting applies. -/
def halfEvenRound (a d : ℤ) : ℤ :=
  let q := Int.fdiv a d
  let r := a - q * d
  if 2 * r < d then q
  else if d < 2 * r then q + 1
  else if q % 2 = 0 then q else q + 1

/-- Model of the f-string rendering `f"{x:.2f}"` (scrape.py line 283) on
the exact decimal value: round to two decimal places (ties to even) and
print with exactly two fractional digits.  On the values exercised
here — having at most two fractional digits — no rounding occurs and
the float rendering agrees with the exact one. -/
def formatTwoDec (x : PyFloat) : String :=
  let n := halfEvenRound (x.mant * 100) ((pow10 x.fdigits : ℕ) : ℤ)
  let a := n.natAbs
  let sign := if n < 0 then "-" else ""
  sign ++ toString (a / 100) ++ "." ++
    (if a % 100 < 10 then "0" ++ toString (a % 100) else toString (a % 100))

/-- Embedding of `find_lowest_price` (scrape.py lines 267-283): fold the
strict-minimum loop over the site→price map, then either the
`("None Found", "N/A")` sentinel (accumulator still at infinity) or the
best site together with the two-decimal rendering of the best price. -/
def find_lowest_price (prices_dict : List (String × Option PyFloat)) :
    String × String :=
  match prices_dict.foldl fl_step (none, "N/A") with
  | (none, _) => ("None Found", "N/A")
  | (some lowest, best_site) => (best_site, formatTwoDec lowest)

/-- One result record of `main`'s loop (scrape.py lines 55-60). -/
structure Record where
  ean : String
  prices : List (String × Option PyFloat)
  lowestSite : String
  lowestPrice : String
deriving DecidableEq

/-- Embedding of the per-EAN loop of `main` (scrape.py lines 45-60): a
record is appended for every processed EAN, unconditionally. -/
def runScraper (env : String → FetchOutcome) (ean_list : List String) : List Record :=
  ean_list.map fun ean =>
    ⟨ean, scrape_all_sites env ean,
      (find_lowest_price (scrape_all_sites env ean)).1,
      (find_lowest_price (scrape_all_sites env ean)).2⟩

/-- Specification-side helper: the minimum present price of a site→price
map, represented by the stored value of the first entry attaining it
(ties keep the earlier entry, matching the strict-inequality loop). -/
def minP : List (String × Option PyFloat) → Option PyFloat
  | [] => none
  | p :: t =>
    match p.2, minP t with
    | some q, some m => some (if m.Lt q then m else q)
    | some q, none => some q
    | none, a => a

/-- Specification-side helper: whether an entry of the map carries a
price numerically equal to `n`. -/
def hasPriceVal (n : PyFloat) (p : String × Option PyFloat) : Bool :=
  match p.2 with
  | some q => decide (q.Deq n)
  | none => false

/-- A Queiroz price element whose text uses the Brazilian
thousands-separator format. -/
def queirozThousandsElem : Elem :=
  ⟨"div", ["product-card__new-price"], "R$ 1.234,56"⟩

/-- A Carrefour price element whose text uses the Brazilian
thousands-separator format. -/
def carrefourThousandsElem : Elem :=
  ⟨"span",
    ["text-blue-royal", "font-bold", "whitespace-nowrap", "block",
     "min-h-6", "text-lg", "leading-none"], "R$ 1.234,56"⟩

/-- A Queiroz price element displaying a zero price. -/
def zeroPriceElem : Elem := ⟨"div", ["product-card__new-price"], "R$ 0,00"⟩

/-- A Queiroz price element displaying an implausibly large price. -/
def hugePriceElem : Elem := ⟨"div", ["product-card__new-price"], "999999,99"⟩

/-- A Queiroz price element with non-numeric text. -/
def nonNumericElem : Elem := ⟨"div", ["product-card__new-price"], "abc"⟩

/-- A Carrefour price element displaying a zero price. -/
def carrefourZeroElem : Elem :=
  ⟨"span",
    ["text-blue-royal", "font-bold", "whitespace-nowrap", "block",
     "min-h-6", "text-lg", "leading-none"], "R$ 0,00"⟩

/-- A Carrefour price element displaying an implausibly large price. -/
def carrefourHugeElem : Elem :=
  ⟨"span",
    ["text-blue-royal", "font-bold", "whitespace-nowrap", "block",
     "min-h-6", "text-lg", "leading-none"], "999999,99"⟩

/-- A Carrefour price element with non-numeric text. -/
def carrefourNonNumericElem : Elem :=
  ⟨"span",
    ["text-blue-royal", "font-bold", "whitespace-nowrap", "block",
     "min-h-6", "text-lg", "leading-none"], "abc"⟩

/-- Another non-numeric Queiroz price element. -/
def commaGarbageElem : Elem := ⟨"div", ["product-card__new-price"], "x,y"⟩

/-- An element matched by the primary Queiroz selector. -/
def qDemoPrimary : Elem := ⟨"div", ["product-card__new-price"], "R$ 10,00"⟩

/-- An element matched only by the fallback Queiroz selector. -/
def qDemoSecondary : Elem := ⟨"span", ["product__new-price"], "R$ 20,00"⟩

/-- A Supernova body carrying an unquoted numeric lowPrice field. -/
def demoSupernovaHtml : String := "\x7b\"lowPrice\": 12.30\x7d"

/-- The aggregator example map of the specification:
A at 10.50, B absent, C at 9.99. -/
def demoPrices : List (String × Option PyFloat) :=
  [("A", some ⟨1050, 2⟩), ("B", none), ("C", some ⟨999, 2⟩)]

/-- A fetch environment in which every request fails. -/
def failEnv : String → FetchOutcome :=
  fun _ => FetchOutcome.failure "network unreachable"

/-- A fetch environment in which only the Carrefour request fails. -/
def downEnv : String → FetchOutcome := fun url =>
  if url = build_search_url "Carrefour" "12345678" then
    FetchOutcome.failure "timeout"
  else FetchOutcome.success ⟨"", []⟩

/-- A variant of `downEnv` differing only on the Carrefour URL. -/
def downEnv2 : String → FetchOutcome := fun url =>
  if url = build_search_url "Carrefour" "12345678" then
    FetchOutcome.success ⟨"", []⟩
  else downEnv url

/-- The recursive `pow10` agrees with exponentiation. -/
theorem pow10_eq (n : ℕ) : pow10 n = 10 ^ n := by
  induction n with
  | zero => rfl
  | succ k ih => simp [pow10, ih, pow_succ]; ring

/-- Positivity of `pow10`, in ℚ after casting. -/
theorem pow10_cast_pos (n : ℕ) : (0 : ℚ) < ((pow10 n : ℕ) : ℚ) := by
  rw [pow10_eq]
  positivity

/-- The cross-multiplication order coincides with the order of the exact
rational values. -/
theorem PyFloat.lt_iff_toRat (a b : PyFloat) : a.Lt b ↔ a.toRat < b.toRat := by
  unfold PyFloat.Lt PyFloat.toRat
  rw [div_lt_div_iff₀ (pow10_cast_pos a.fdigits) (pow10_cast_pos b.fdigits)]
  constructor
  · intro h
    exact_mod_cast h
  · intro h
    exact_mod_cast h

/-- The cross-multiplication equality coincides with equality of the
exact rational values. -/
theorem PyFloat.deq_iff_toRat (a b : PyFloat) : a.Deq b ↔ a.toRat = b.toRat := by
  unfold PyFloat.Deq PyFloat.toRat
  rw [div_eq_div_iff (ne_of_gt (pow10_cast_pos a.fdigits)) (ne_of_gt (pow10_cast_pos b.fdigits))]
  constructor
  · intro h
    exact_mod_cast h
  · intro h
    exact_mod_cast h

/-- The minimum is absent exactly when every entry is absent. -/
theorem minP_none (l : List (String × Option PyFloat)) :
    minP l = none ↔ ∀ p ∈ l, p.2 = none := by
  induction l with
  | nil => simp [minP]
  | cons p t ih =>
    obtain ⟨a, v⟩ := p
    cases v with
    | none => simp [minP, ih]
    | some q =>
      cases hmt : minP t with
      | none => simp [minP, hmt]
      | some m => simp [minP, hmt]

/-- The representative returned by `minP` is one of the stored prices. -/
theorem minP_mem (l : List (String × Option PyFloat)) (n : PyFloat)
    (h : minP l = some n) : ∃ p ∈ l, p.2 = some n := by
  induction l with
  | nil => simp [minP] at h
  | cons p t ih =>
    obtain ⟨a, v⟩ := p
    cases v with
    | none =>
      simp only [minP] at h
      obtain ⟨q, hq, hq2⟩ := ih h
      exact ⟨q, List.mem_cons_of_mem _ hq, hq2⟩
    | some q =>
      cases hmt : minP t with
      | none =>
        simp only [minP, hmt] at h
        exact ⟨(a, some q), List.mem_cons_self _ _, by rw [Option.some_inj.mp h]⟩
      | some m =>
        simp only [minP, hmt] at h
        by_cases hlt : m.Lt q
        · rw [if_pos hlt] at h
          obtain ⟨r, hr, hr2⟩ := ih (by rw [hmt, Option.some_inj.mp h])
          exact ⟨r, List.mem_cons_of_mem _ hr, hr2⟩
        · rw [if_neg hlt] at h
          exact ⟨(a, some q), List.mem_cons_self _ _, by rw [Option.some_inj.mp h]⟩

/-- The representative returned by `minP` is a lower bound for every
present price. -/
theorem minP_le (l : List (String × Option PyFloat)) (n : PyFloat)
    (h : minP l = some n) :
    ∀ p ∈ l, ∀ q, p.2 = some q → n.toRat ≤ q.toRat := by
  induction l generalizing n with
  | nil => simp
  | cons p t ih =>
    obtain ⟨a, v⟩ := p
    intro r hr q hq
    rcases List.mem_cons.mp hr with hhead | htail
    · subst hhead
      cases v with
      | none => simp at hq
      | some q0 =>
        have hq0 : q0 = q := by simpa using hq
        subst hq0
        cases hmt : minP t with
        | none =>
          simp only [minP, hmt] at h
          rw [Option.some_inj.mp h]
        | some m =>
          simp only [minP, hmt] at h
          by_cases hlt : m.Lt q0
          · rw [if_pos hlt] at h
            rw [← Option.some_inj.mp h]
            exact le_of_lt ((PyFloat.lt_iff_toRat m q0).mp hlt)
          · rw [if_neg hlt] at h
            rw [Option.some_inj.mp h]
    · cases v with
      | none =>
        simp only [minP] at h
        exact ih n h r htail q hq
      | some q0 =>
        cases hmt : minP t with
        | none =>
          rw [(minP_none t).mp hmt r htail] at hq
          cases hq
        | some m =>
          simp only [minP, hmt] at h
          have hm := ih m hmt r htail q hq
          by_cases hlt : m.Lt q0
          · rw [if_pos hlt] at h
            rw [← Option.some_inj.mp h]
            exact hm
          · rw [if_neg hlt] at h
            rw [← Option.some_inj.mp h]
            have : ¬ m.toRat < q0.toRat := fun hc => hlt ((PyFloat.lt_iff_toRat m q0).mpr hc)
            linarith [hm]

/-- A map with at least one present entry has a minimum. -/
theorem minP_isSome (l : List (String × Option PyFloat))
    (h : ∃ p ∈ l, p.2 ≠ none) : ∃ n, minP l = some n := by
  cases hml : minP l with
  | some n => exact ⟨n, rfl⟩
  | none =>
    obtain ⟨p, hp, hp2⟩ := h
    exact absurd ((minP_none l).mp hml p hp) hp2

/-- Negated strict order on `PyFloat`, in rational terms. -/
theorem PyFloat.not_lt_iff_toRat (a b : PyFloat) : ¬ a.Lt b ↔ b.toRat ≤ a.toRat := by
  rw [PyFloat.lt_iff_toRat]
  exact not_lt

/-- Numeric equality is reflexive. -/
theorem PyFloat.deq_refl (a : PyFloat) : a.Deq a := rfl

/-- An absent entry leaves the loop accumulator unchanged. -/
theorem fl_step_absent (acc : Option PyFloat × String) (a : String) :
    fl_step acc (a, none) = acc := rfl

/-- The first present entry seeds the accumulator. -/
theorem fl_step_first (s0 a : String) (q : PyFloat) :
    fl_step (none, s0) (a, some q) = (some q, a) := rfl

/-- A present entry replaces the accumulator iff strictly smaller. -/
theorem fl_step_cmp (m : PyFloat) (s a : String) (q : PyFloat) :
    fl_step (some m, s) (a, some q) = if q.Lt m then (some q, a) else (some m, s) := rfl

/-- An absent entry never carries price value `n`. -/
theorem hasPriceVal_absent (n : PyFloat) (a : String) :
    hasPriceVal n (a, (none : Option PyFloat)) = false := rfl

/-- A present entry carries price value `n` iff numerically equal. -/
theorem hasPriceVal_present (n q : PyFloat) (a : String) :
    hasPriceVal n (a, some q) = decide (q.Deq n) := rfl

/-- Characterization of the `find_lowest_price` loop from a seeded
accumulator `(some m, s)`: the accumulator survives unless some entry is
strictly below `m`, in which case the result is the minimum `n` together
with the site of the first entry whose value equals `n`. -/
theorem foldl_fl_char (l : List (String × Option PyFloat)) :
    ∀ (m : PyFloat) (s : String),
      (minP l = none → l.foldl fl_step (some m, s) = (some m, s)) ∧
      (∀ n, minP l = some n → n.Lt m →
        l.foldl fl_step (some m, s)
          = (some n, ((l.find? (hasPriceVal n)).map Prod.fst).getD s)) ∧
      (∀ n, minP l = some n → ¬ n.Lt m → l.foldl fl_step (some m, s) = (some m, s)) := by
  induction l with
  | nil =>
    intro m s
    refine ⟨fun _ => rfl, fun n hn => by simp [minP] at hn, fun n hn _ => rfl⟩
  | cons p t ih =>
    obtain ⟨a, v⟩ := p
    intro m s
    cases v with
    | none =>
      have hminP : minP ((a, (none : Option PyFloat)) :: t) = minP t := by simp [minP]
      have hfind : ∀ n : PyFloat,
          ((a, (none : Option PyFloat)) :: t).find? (hasPriceVal n)
            = t.find? (hasPriceVal n) := by
        intro n
        exact List.find?_cons_of_neg _ (by simp [hasPriceVal_absent])
      refine ⟨?_, ?_, ?_⟩
      · intro h
        rw [hminP] at h
        rw [List.foldl_cons, fl_step_absent]
        exact (ih m s).1 h
      · intro n hn hlt
        rw [hminP] at hn
        rw [List.foldl_cons, fl_step_absent, hfind]
        exact (ih m s).2.1 n hn hlt
      · intro n hn hlt
        rw [hminP] at hn
        rw [List.foldl_cons, fl_step_absent]
        exact (ih m s).2.2 n hn hlt
    | some q =>
      refine ⟨?_, ?_, ?_⟩
      · intro h
        cases hmt : minP t <;> simp [minP, hmt] at h
      · intro n hn hlt
        rw [List.foldl_cons, fl_step_cmp]
        by_cases hq : q.Lt m
        · rw [if_pos hq]
          cases hmt : minP t with
          | none =>
            have hminl : minP ((a, some q) :: t) = some q := by simp [minP, hmt]
            rw [hminl] at hn
            cases hn
            rw [(ih q a).1 hmt,
              List.find?_cons_of_pos _ (by simp [hasPriceVal_present, PyFloat.deq_refl])]
            rfl
          | some n' =>
            have hminl : minP ((a, some q) :: t) = some (if n'.Lt q then n' else q) := by
              simp [minP, hmt]
            rw [hminl] at hn
            cases hn
            by_cases hn'q : n'.Lt q
            · simp only [if_pos hn'q] at hlt ⊢
              rw [(ih q a).2.1 n' hmt hn'q]
              have hhead : ((a, some q) :: t).find? (hasPriceVal n')
                  = t.find? (hasPriceVal n') := by
                refine List.find?_cons_of_neg _ ?_
                simp only [hasPriceVal_present, decide_eq_true_eq]
                intro hdeq
                have h1 := (PyFloat.deq_iff_toRat q n').mp hdeq
                have h2 := (PyFloat.lt_iff_toRat n' q).mp hn'q
                linarith
              rw [hhead]
              obtain ⟨r, hr, hr2⟩ := minP_mem t n' hmt
              have hsome : (t.find? (hasPriceVal n')).isSome := by
                rw [List.find?_isSome]
                exact ⟨r, hr, by simp [hasPriceVal, hr2, PyFloat.deq_refl]⟩
              obtain ⟨y, hy⟩ := Option.isSome_iff_exists.mp hsome
              rw [hy]
              simp
            · simp only [if_neg hn'q] at hlt ⊢
              rw [(ih q a).2.2 n' hmt hn'q,
                List.find?_cons_of_pos _ (by simp [hasPriceVal_present, PyFloat.deq_refl])]
              rfl
        · rw [if_neg hq]
          cases hmt : minP t with
          | none =>
            exfalso
            have hminl : minP ((a, some q) :: t) = some q := by simp [minP, hmt]
            rw [hminl] at hn
            cases hn
            exact hq hlt
          | some n' =>
            have hminl : minP ((a, some q) :: t) = some (if n'.Lt q then n' else q) := by
              simp [minP, hmt]
            rw [hminl] at hn
            cases hn
            by_cases hn'q : n'.Lt q
            · simp only [if_pos hn'q] at hlt ⊢
              rw [(ih m s).2.1 n' hmt hlt]
              have hhead : ((a, some q) :: t).find? (hasPriceVal n')
                  = t.find? (hasPriceVal n') := by
                refine List.find?_cons_of_neg _ ?_
                simp only [hasPriceVal_present, decide_eq_true_eq]
                intro hdeq
                have h1 := (PyFloat.deq_iff_toRat q n').mp hdeq
                have h2 := (PyFloat.lt_iff_toRat n' q).mp hn'q
                linarith
              rw [hhead]
            · exfalso
              simp only [if_neg hn'q] at hlt
              exact hq hlt
      · intro n hn hlt
        rw [List.foldl_cons, fl_step_cmp]
        by_cases hq : q.Lt m
        · exfalso
          have hnq : n.toRat ≤ q.toRat :=
            minP_le _ n hn (a, some q) (List.mem_cons_self _ _) q rfl
          have h1 := (PyFloat.not_lt_iff_toRat n m).mp hlt
          have h2 := (PyFloat.lt_iff_toRat q m).mp hq
          linarith
        · rw [if_neg hq]
          cases hmt : minP t with
          | none => exact (ih m s).1 hmt
          | some n' =>
            have hminl : minP ((a, some q) :: t) = some (if n'.Lt q then n' else q) := by
              simp [minP, hmt]
            rw [hminl] at hn
            cases hn
            refine (ih m s).2.2 n' hmt ?_
            have h1 := (PyFloat.not_lt_iff_toRat _ m).mp hlt
            rw [PyFloat.not_lt_iff_toRat]
            by_cases hn'q : n'.Lt q
            · simp only [if_pos hn'q] at h1
              linarith
            · simp only [if_neg hn'q] at h1
              have h2 := (PyFloat.not_lt_iff_toRat n' q).mp hn'q
              linarith

/-- The first entry whose value equals the minimum stores the
representative returned by `minP` itself. -/
theorem minP_find (l : List (String × Option PyFloat)) (n : PyFloat)
    (h : minP l = some n) :
    ∃ s, l.find? (hasPriceVal n) = some (s, some n) := by
  induction l generalizing n with
  | nil => simp [minP] at h
  | cons p t ih =>
    obtain ⟨a, v⟩ := p
    cases v with
    | none =>
      simp only [minP] at h
      obtain ⟨s, hs⟩ := ih n h
      exact ⟨s, by rw [List.find?_cons_of_neg _ (by simp [hasPriceVal_absent]), hs]⟩
    | some q =>
      cases hmt : minP t with
      | none =>
        have hminl : minP ((a, some q) :: t) = some q := by simp [minP, hmt]
        rw [hminl] at h
        cases h
        exact ⟨a,
          List.find?_cons_of_pos _ (by simp [hasPriceVal_present, PyFloat.deq_refl])⟩
      | some n' =>
        have hminl : minP ((a, some q) :: t) = some (if n'.Lt q then n' else q) := by
          simp [minP, hmt]
        rw [hminl] at h
        cases h
        by_cases hn'q : n'.Lt q
        · simp only [if_pos hn'q]
          obtain ⟨s, hs⟩ := ih n' hmt
          refine ⟨s, ?_⟩
          have hhead : hasPriceVal n' (a, some q) = false := by
            simp only [hasPriceVal_present, decide_eq_false_iff_not]
            intro hdeq
            have h1 := (PyFloat.deq_iff_toRat q n').mp hdeq
            have h2 := (PyFloat.lt_iff_toRat n' q).mp hn'q
            linarith
          rw [List.find?_cons_of_neg _ (by simp [hhead]), hs]
        · simp only [if_neg hn'q]
          exact ⟨a,
            List.find?_cons_of_pos _ (by simp [hasPriceVal_present, PyFloat.deq_refl])⟩

/-- Characterization of the `find_lowest_price` loop from its actual
initial accumulator (`float("inf")`, site `"N/A"`). -/
theorem foldl_fl_init (l : List (String × Option PyFloat)) :
    (minP l = none →
      l.foldl fl_step ((none : Option PyFloat), "N/A") = (none, "N/A")) ∧
    (∀ n, minP l = some n →
      l.foldl fl_step ((none : Option PyFloat), "N/A")
        = (some n, ((l.find? (hasPriceVal n)).map Prod.fst).getD "N/A")) := by
  induction l with
  | nil => exact ⟨fun _ => rfl, fun n hn => by simp [minP] at hn⟩
  | cons p t ih =>
    obtain ⟨a, v⟩ := p
    cases v with
    | none =>
      have hminP : minP ((a, (none : Option PyFloat)) :: t) = minP t := by simp [minP]
      have hfind : ∀ n : PyFloat,
          ((a, (none : Option PyFloat)) :: t).find? (hasPriceVal n)
            = t.find? (hasPriceVal n) :=
        fun n => List.find?_cons_of_neg _ (by simp [hasPriceVal_absent])
      refine ⟨?_, ?_⟩
      · intro h
        rw [hminP] at h
        rw [List.foldl_cons, fl_step_absent]
        exact ih.1 h
      · intro n hn
        rw [hminP] at hn
        rw [List.foldl_cons, fl_step_absent, hfind]
        exact ih.2 n hn
    | some q =>
      refine ⟨?_, ?_⟩
      · intro h
        cases hmt : minP t <;> simp [minP, hmt] at h
      · intro n hn
        rw [List.foldl_cons, fl_step_first]
        cases hmt : minP t with
        | none =>
          have hminl : minP ((a, some q) :: t) = some q := by simp [minP, hmt]
          rw [hminl] at hn
          cases hn
          rw [(foldl_fl_char t q a).1 hmt,
            List.find?_cons_of_pos _ (by simp [hasPriceVal_present, PyFloat.deq_refl])]
          rfl
        | some n' =>
          have hminl : minP ((a, some q) :: t) = some (if n'.Lt q then n' else q) := by
            simp [minP, hmt]
          rw [hminl] at hn
          cases hn
          by_cases hn'q : n'.Lt q
          · simp only [if_pos hn'q]
            rw [(foldl_fl_char t q a).2.1 n' hmt hn'q]
            have hhead : ((a, some q) :: t).find? (hasPriceVal n')
                = t.find? (hasPriceVal n') := by
              refine List.find?_cons_of_neg _ ?_
              simp only [hasPriceVal_present, decide_eq_true_eq]
              intro hdeq
              have h1 := (PyFloat.deq_iff_toRat q n').mp hdeq
              have h2 := (PyFloat.lt_iff_toRat n' q).mp hn'q
              linarith
            rw [hhead]
            obtain ⟨s, hs⟩ := minP_find t n' hmt
            rw [hs]
            simp
          · simp only [if_neg hn'q]
            rw [(foldl_fl_char t q a).2.2 n' hmt hn'q,
              List.find?_cons_of_pos _ (by simp [hasPriceVal_present, PyFloat.deq_refl])]
            rfl

/-- With every entry below the minimum absent, the loop returns the
sentinel pair. -/
theorem flp_none_found (l : List (String × Option PyFloat)) (h : minP l = none) :
    find_lowest_price l = ("None Found", "N/A") := by
  unfold find_lowest_price
  rw [(foldl_fl_init l).1 h]

/-- With a present minimum, the loop returns the site of the first entry
attaining it and the two-decimal rendering of its value. -/
theorem flp_min (l : List (String × Option PyFloat)) (n : PyFloat)
    (h : minP l = some n) :
    ∃ s, l.find? (hasPriceVal n) = some (s, some n) ∧ (s, some n) ∈ l ∧
      find_lowest_price l = (s, formatTwoDec n) := by
  obtain ⟨s, hs⟩ := minP_find l n h
  refine ⟨s, hs, List.mem_of_find?_eq_some hs, ?_⟩
  unfold find_lowest_price
  rw [(foldl_fl_init l).2 n h, hs]
  rfl

/-- Claim C5 (amended): the Code Validator accepts a string iff every
character is a digit in the sense of Python `str.isdigit` — which is
true of non-ASCII Unicode digits as well — and the length is exactly 8
or exactly 13.  The claim's restriction to ASCII digits fails; see the
counterexample. -/
theorem is_valid_ean_characterization (s : String) :
    is_valid_ean s = true ↔
      ((∀ c ∈ s.data, pyIsDigit c = true) ∧ (s.length = 8 ∨ s.length = 13)) := by
  have hlen : s.length = s.data.length := rfl
  simp only [is_valid_ean, Bool.and_eq_true, Bool.or_eq_true, List.all_eq_true,
    beq_iff_eq, Bool.not_eq_true', List.isEmpty_eq_false, ne_eq]
  constructor
  · rintro ⟨⟨_, hall⟩, hl⟩
    exact ⟨hall, hl⟩
  · rintro ⟨hall, hl⟩
    refine ⟨⟨?_, hall⟩, hl⟩
    intro hnil
    rw [hlen, hnil] at hl
    simp at hl

/-- Claim C5, counterexample: a string of eight Arabic-Indic digits is
accepted by `is_valid_ean` (Python `str.isdigit` is true on them),
although none of its characters is an ASCII digit. -/
theorem is_valid_ean_nonascii_digit :
    is_valid_ean "٠٠٠٠٠٠٠٠" = true ∧
    ("٠٠٠٠٠٠٠٠".data.all Char.isDigit) = false := by decide

/-- Claim C1 (code bug): on the element text `"R$ 1.234,56"` the markup
extraction does not produce 1234.56.  The cleaning only replaces the
comma by a dot, yielding `"1.234.56"`, whose `float` parse raises
`ValueError`; `extract_price` catches it and the result is absent.  The
same happens on the Carrefour path.  Had the thousands dot been removed,
the remaining text `"1234.56"` would parse to 1234.56. -/
theorem thousands_separator_valueerror :
    extract_queiroz_price [queirozThousandsElem] = Except.error () ∧
    extract_price "Lojas Queiroz" [queirozThousandsElem] "" = none ∧
    extract_price "Carrefour" [carrefourThousandsElem] "" = none ∧
    pyFloatParse "1.234.56" = none ∧
    (pyFloatParse "1234.56").map PyFloat.toRat = some (123456 / 100 : ℚ) := by
  refine ⟨rfl, by decide, by decide, by decide, ?_⟩
  have h : pyFloatParse "1234.56" = some ⟨123456, 2⟩ := by decide
  rw [h]
  norm_num [PyFloat.toRat, pow10]

/-- Claim C2, counterexample: a body in which the lowPrice value is a
quoted string, exactly as written in the specification's example, does
not match the regex (a digit must follow the optional whitespace), so
the extraction yields absent rather than 12.30. -/
theorem supernova_quoted_lowprice_absent :
    extract_supernova_price "\x7b\"lowPrice\": \"12.30\"\x7d" = none := by decide

/-- Claim C2 (amended): raw-text extraction keyed on lowPrice yields
12.30 for an unquoted numeric field `lowPrice: 12.30`; a quoted
non-numeric value such as `"abc"` yields absent; and no exception
propagates — on the Supernova path `extract_price` is exactly the
raw-text extractor, which is total. -/
theorem supernova_structured_extraction :
    (extract_supernova_price demoSupernovaHtml).map PyFloat.toRat
      = some (123 / 10 : ℚ) ∧
    extract_supernova_price "\x7b\"lowPrice\": \"abc\"\x7d" = none ∧
    ∀ (soup : List Elem) (html : String),
      extract_price "Supernova Era" soup html = extract_supernova_price html := by
  refine ⟨?_, by decide, fun soup html => rfl⟩
  have h : extract_supernova_price demoSupernovaHtml = some ⟨1230, 2⟩ := by decide
  rw [h]
  norm_num [PyFloat.toRat, pow10]

/-- Claim C4, counterexample: the markup extractors — both the Lojas
Queiroz and the Carrefour one — enforce no range check.  A zero price
(text `"R$ 0,00"`) is returned, though it is not positive and not above
any positive epsilon; a 999999.99 price is returned, though it is above
the 100000 ceiling the raw-text extractor uses. -/
theorem markup_extractors_unbounded :
    extract_price "Lojas Queiroz" [zeroPriceElem] "" = some ⟨0, 2⟩ ∧
    extract_price "Carrefour" [carrefourZeroElem] "" = some ⟨0, 2⟩ ∧
    PyFloat.toRat ⟨0, 2⟩ = 0 ∧
    extract_price "Lojas Queiroz" [hugePriceElem] "" = some ⟨99999999, 2⟩ ∧
    extract_price "Carrefour" [carrefourHugeElem] "" = some ⟨99999999, 2⟩ ∧
    (100000 : ℚ) < PyFloat.toRat ⟨99999999, 2⟩ := by
  refine ⟨by decide, by decide, by norm_num [PyFloat.toRat, pow10], by decide,
    by decide, ?_⟩
  norm_num [PyFloat.toRat, pow10]

/-- Claim C4 (amended): only the raw-text Supernova extractor enforces
the plausibility bound — every price it returns lies strictly between 1
and 100000; the markup extractors return any successfully parsed number
(zero or huge values included, see the counterexample), and a
non-numeric parse surfaces as absent because `extract_price` catches
the `ValueError`. -/
theorem price_bounds_amended :
    (∀ (html : String) (p : PyFloat), extract_supernova_price html = some p →
      1 < p.toRat ∧ p.toRat < 100000) ∧
    (∀ (soup : List Elem) (html : String) (e : Unit),
      extract_queiroz_price soup = Except.error e →
      extract_price "Lojas Queiroz" soup html = none) ∧
    (∀ (soup : List Elem) (html : String) (e : Unit),
      extract_carrefour_price soup = Except.error e →
      extract_price "Carrefour" soup html = none) := by
  refine ⟨?_, ?_, ?_⟩
  · intro html p h
    unfold extract_supernova_price at h
    cases hs : lowPriceSearch html.data with
    | none =>
      simp only [hs] at h
      cases h
    | some g =>
      simp only [hs] at h
      cases hp : pyFloatParse ⟨g⟩ with
      | none =>
        simp only [hp] at h
        cases h
      | some price =>
        simp only [hp] at h
        split_ifs at h with hb
        cases h
        have h1 := (PyFloat.lt_iff_toRat ⟨1, 0⟩ p).mp hb.1
        have h2 := (PyFloat.lt_iff_toRat p ⟨100000, 0⟩).mp hb.2
        have e1 : PyFloat.toRat ⟨1, 0⟩ = 1 := by norm_num [PyFloat.toRat, pow10]
        have e2 : PyFloat.toRat ⟨100000, 0⟩ = 100000 := by
          norm_num [PyFloat.toRat, pow10]
        rw [e1] at h1
        rw [e2] at h2
        exact ⟨h1, h2⟩
  · intro soup html e h
    unfold extract_price extract_price_inner
    rw [if_neg (by decide), if_pos rfl, h]
  · intro soup html e h
    unfold extract_price extract_price_inner
    rw [if_neg (by decide), if_neg (by decide), if_pos rfl, h]

/-- Claim C4, witness: the amended theorem applied to the Supernova body
with lowPrice 12.30, to a non-numeric Queiroz element, and to a
non-numeric Carrefour element. -/
theorem price_bounds_amended_witness :
    (1 < PyFloat.toRat ⟨1230, 2⟩ ∧ PyFloat.toRat ⟨1230, 2⟩ < 100000) ∧
    extract_price "Lojas Queiroz" [nonNumericElem] "" = none ∧
    extract_price "Carrefour" [carrefourNonNumericElem] "" = none :=
  ⟨price_bounds_amended.1 demoSupernovaHtml ⟨1230, 2⟩ (by decide),
   price_bounds_amended.2.1 [nonNumericElem] "" () rfl,
   price_bounds_amended.2.2 [carrefourNonNumericElem] "" () rfl⟩

/-- Claim C9: the Lojas Queiroz extraction tries the primary selector
`div.product-card__new-price` first and uses its first matching element;
only when the primary finds no element does it try the fallback selector
`.product__new-price`; when both fail the result is `None`.  The last
conjunct states that `selectOne` returns the first matching element in
document order. -/
theorem queiroz_selector_fallback_order :
    (∀ (soup : List Elem) (e : Elem), selectOne soup qSel1 = some e →
      extract_queiroz_price soup = brl_text_to_price e.text) ∧
    (∀ (soup : List Elem) (e : Elem), selectOne soup qSel1 = none →
      selectOne soup qSel2 = some e →
      extract_queiroz_price soup = brl_text_to_price e.text) ∧
    (∀ soup : List Elem, selectOne soup qSel1 = none →
      selectOne soup qSel2 = none →
      extract_queiroz_price soup = Except.ok none) ∧
    (∀ (pre post : List Elem) (e : Elem) (sel : Selector),
      selMatches sel e = true → (∀ x ∈ pre, selMatches sel x = false) →
      selectOne (pre ++ e :: post) sel = some e) := by
  refine ⟨?_, ?_, ?_, ?_⟩
  · intro soup e h
    simp only [extract_queiroz_price, h]
  · intro soup e h1 h2
    simp only [extract_queiroz_price, h1, h2]
  · intro soup h1 h2
    simp only [extract_queiroz_price, h1, h2]
  · intro pre post e sel hm
    induction pre with
    | nil =>
      intro _
      unfold selectOne
      rw [List.nil_append]
      exact List.find?_cons_of_pos _ hm
    | cons x xs ih =>
      intro hall
      have hx : selMatches sel x = false := hall x (List.mem_cons_self _ _)
      unfold selectOne
      rw [List.cons_append, List.find?_cons_of_neg _ (by simp [hx])]
      exact ih fun y hy => hall y (List.mem_cons_of_mem _ hy)

/-- Claim C9, witness: with both a primary and a fallback element present
the primary one is used; with only a fallback element present the
fallback is used. -/
theorem queiroz_selector_fallback_order_witness :
    extract_queiroz_price [qDemoPrimary, qDemoSecondary]
      = brl_text_to_price qDemoPrimary.text ∧
    extract_queiroz_price [qDemoSecondary]
      = brl_text_to_price qDemoSecondary.text :=
  ⟨queiroz_selector_fallback_order.1 [qDemoPrimary, qDemoSecondary] qDemoPrimary
      (by decide),
   queiroz_selector_fallback_order.2.1 [qDemoSecondary] qDemoSecondary
      (by decide) (by decide)⟩

/-- Claim C6: a transport failure for a site makes that site's price
absent; an extraction exception is caught and makes the price absent; a
site's result depends only on that site's own fetch outcome, so one
site's failure cannot affect the others; and a failed site still
contributes its (absent) entry to the per-code map. -/
theorem per_site_failure_isolated :
    (∀ (env : String → FetchOutcome) (site_name ean reason : String),
      env (build_search_url site_name ean) = FetchOutcome.failure reason →
      scrape_single_site env site_name ean = none) ∧
    (∀ (site_name : String) (soup : List Elem) (html : String) (e : Unit),
      extract_price_inner site_name soup html = Except.error e →
      extract_price site_name soup html = none) ∧
    (∀ (env env2 : String → FetchOutcome) (ean site_name : String),
      env2 (build_search_url site_name ean) = env (build_search_url site_name ean) →
      scrape_single_site env2 site_name ean = scrape_single_site env site_name ean) ∧
    (∀ (env : String → FetchOutcome) (ean site_name reason : String),
      site_name ∈ SITES.map Prod.fst →
      env (build_search_url site_name ean) = FetchOutcome.failure reason →
      (site_name, (none : Option PyFloat)) ∈ scrape_all_sites env ean) := by
  refine ⟨?_, ?_, ?_, ?_⟩
  · intro env site_name ean reason h
    unfold scrape_single_site
    rw [h]
  · intro site_name soup html e h
    unfold extract_price
    rw [h]
  · intro env env2 ean site_name h
    unfold scrape_single_site
    rw [h]
  · intro env ean site_name reason hmem h
    obtain ⟨p, hp, hfst⟩ := List.mem_map.mp hmem
    subst hfst
    unfold scrape_all_sites
    refine List.mem_map.mpr ⟨p, hp, ?_⟩
    have : scrape_single_site env p.1 ean = none := by
      unfold scrape_single_site
      rw [h]
    rw [this]

/-- Claim C6, witness: the theorem applied to an environment in which
only the Carrefour request fails, to a non-numeric Queiroz element, and
to a second environment differing only on the Carrefour URL. -/
theorem per_site_failure_isolated_witness :
    scrape_single_site downEnv "Carrefour" "12345678" = none ∧
    extract_price "Lojas Queiroz" [commaGarbageElem] "" = none ∧
    scrape_single_site downEnv2 "Supernova Era" "12345678"
      = scrape_single_site downEnv "Supernova Era" "12345678" ∧
    ("Carrefour", (none : Option PyFloat)) ∈ scrape_all_sites downEnv "12345678" :=
  ⟨per_site_failure_isolated.1 downEnv "Carrefour" "12345678" "timeout" (by decide),
   per_site_failure_isolated.2.1 "Lojas Queiroz" [commaGarbageElem] "" () rfl,
   per_site_failure_isolated.2.2.1 downEnv downEnv2 "12345678" "Supernova Era"
     (by decide),
   per_site_failure_isolated.2.2.2 downEnv "12345678" "Carrefour" "timeout"
     (by decide) (by decide)⟩

/-- Claim C8: for every fetch environment and every product code, the
per-code result map has exactly one entry per registered site: its key
list equals the registry's key list (which has no duplicates) — never a
subset. -/
theorem scrape_all_sites_covers_registry (env : String → FetchOutcome) (ean : String) :
    (scrape_all_sites env ean).map Prod.fst = SITES.map Prod.fst ∧
    (SITES.map Prod.fst).Nodup :=
  ⟨rfl, by decide⟩

/-- Claim C7: when no site has a present price the aggregator returns
the explicit `("None Found", "N/A")` sentinel pair, not an error, and
the per-code record carrying that sentinel is still produced by the main
loop. -/
theorem no_price_sentinel_record (env : String → FetchOutcome)
    (ean_list : List String) (ean : String) (he : ean ∈ ean_list)
    (h : ∀ p ∈ scrape_all_sites env ean, p.2 = none) :
    find_lowest_price (scrape_all_sites env ean) = ("None Found", "N/A") ∧
    (⟨ean, scrape_all_sites env ean, "None Found", "N/A"⟩ : Record)
      ∈ runScraper env ean_list := by
  have h1 : find_lowest_price (scrape_all_sites env ean) = ("None Found", "N/A") :=
    flp_none_found _ ((minP_none _).mpr h)
  refine ⟨h1, ?_⟩
  unfold runScraper
  refine List.mem_map.mpr ⟨ean, he, ?_⟩
  rw [h1]

/-- Claim C7, witness: the theorem applied to the all-failing
environment and the single product code 12345678. -/
theorem no_price_sentinel_record_witness :
    find_lowest_price (scrape_all_sites failEnv "12345678") = ("None Found", "N/A") ∧
    (⟨"12345678", scrape_all_sites failEnv "12345678", "None Found", "N/A"⟩ : Record)
      ∈ runScraper failEnv ["12345678"] :=
  no_price_sentinel_record failEnv ["12345678"] "12345678" (by decide) (by decide)

/-- Claim C3: whenever the site→price map has at least one present
price, `find_lowest_price` returns the site of the entry with the
minimum present price, ties broken in favour of the first such entry in
the map's enumeration order (the registry order, by C8), together with
the two-decimal rendering of that minimum. -/
theorem find_lowest_price_selects_min (l : List (String × Option PyFloat))
    (h : ∃ p ∈ l, p.2 ≠ none) :
    ∃ (n : PyFloat) (s : String),
      (s, some n) ∈ l ∧
      (∀ r ∈ l, ∀ q, r.2 = some q → n.toRat ≤ q.toRat) ∧
      l.find? (hasPriceVal n) = some (s, some n) ∧
      find_lowest_price l = (s, formatTwoDec n) := by
  obtain ⟨n, hn⟩ := minP_isSome l h
  obtain ⟨s, hs, hmem, heq⟩ := flp_min l n hn
  exact ⟨n, s, hmem, minP_le l n hn, hs, heq⟩

/-- Claim C3, witness: the theorem applied to the specification's
example map A at 10.50, B absent, C at 9.99; the selected pair is
C with rendering 9.99. -/
theorem find_lowest_price_selects_min_witness :
    (∃ (n : PyFloat) (s : String),
      (s, some n) ∈ demoPrices ∧
      (∀ r ∈ demoPrices, ∀ q, r.2 = some q → n.toRat ≤ q.toRat) ∧
      demoPrices.find? (hasPriceVal n) = some (s, some n) ∧
      find_lowest_price demoPrices = (s, formatTwoDec n)) ∧
    find_lowest_price demoPrices = ("C", "9.99") :=
  ⟨find_lowest_price_selects_min demoPrices (by decide), by decide⟩

/-- Claim C10: the aggregator's price component is a string, although
the map it consumes holds numeric values — the two-decimal rendering of
the minimum present price when one exists, and the literal `"N/A"`
alongside the `"None Found"` site when no price is present. -/
theorem find_lowest_price_returns_strings (l : List (String × Option PyFloat)) :
    ((∀ p ∈ l, p.2 = none) → find_lowest_price l = ("None Found", "N/A")) ∧
    (∀ n, minP l = some n → (find_lowest_price l).2 = formatTwoDec n) := by
  constructor
  · intro h
    exact flp_none_found l ((minP_none l).mpr h)
  · intro n hn
    obtain ⟨s, _, _, heq⟩ := flp_min l n hn
    rw [heq]

/-- Claim C10, witness: the theorem applied to a one-entry absent map
and to a one-entry map holding 5.00. -/
theorem find_lowest_price_returns_strings_witness :
    find_lowest_price [("A", (none : Option PyFloat))] = ("None Found", "N/A") ∧
    (find_lowest_price [("A", some (⟨500, 2⟩ : PyFloat))]).2 = formatTwoDec ⟨500, 2⟩ :=
  ⟨(find_lowest_price_returns_strings _).1 (by decide),
   (find_lowest_price_returns_strings _).2 ⟨500, 2⟩ (by decide)⟩
